import Mathlib

/-!
Verification of the path-builder token-resolution and validation workflow of the
cross-chain arbitrage dashboard frontend.

The definitions below are a shallow embedding of the TypeScript source:
 * `src/shared/types.ts`            — the data model (`PoolDirection`, chain paths, …)
 * `src/client/utils/poolTokens.ts` — `fetchPoolTokens` (pool token resolution with
                                      RPC-endpoint fallback)
 * `src/client/utils/tokenInfo.ts`  — `fetchTokenInfo` / `fetchTokenInfoBatch` and the
                                      module-level `tokenInfoCache`
 * `src/client/components/forms/PoolForm.tsx` (the `PathForm` component) —
                                      `validateTokenFlow`, the inline token-orientation
                                      logic of `handlePoolAddressChange` /
                                      `handleVerifyChainPath`, `handleSubmit`, and the
                                      `isVerified` flag dynamics.

Network I/O is modelled by explicit oracle records describing what each RPC endpoint
returns; the module-level caches are modelled by explicit state passing.  Machine
strings are Lean `String`s; JavaScript `toLowerCase` on ASCII addresses is modelled
by mapping `Char.toLower` over the characters.
-/

namespace ArbDash

/-- `{ name, symbol }` record returned by the token-metadata reader
(`src/client/utils/tokenInfo.ts`). -/
structure TokenInfo where
  name : String
  symbol : String
deriving Repr, DecidableEq

/-- One hop of a pool path: `PoolDirection` from `src/shared/types.ts`. -/
structure PoolDirection where
  pool : String
  token_in : String
  token_out : String
deriving Repr, DecidableEq

/-- A pool path is an ordered list of directions (`src/shared/types.ts`). -/
abbrev PoolPath := List PoolDirection

/-- `SingleChainPathsWithAnchorToken` from `src/shared/types.ts`. -/
structure SingleChainPathsWithAnchorToken where
  paths : List PoolPath
  chain_id : Nat
  anchor_token : String
deriving Repr, DecidableEq

/-- The in-memory path document edited by `PathForm` (`formData` minus `deleted_at`):
field `paths` of the `Path` shape in `src/shared/types.ts`. -/
structure PathDoc where
  paths : List SingleChainPathsWithAnchorToken
deriving Repr, DecidableEq

/-- JavaScript `String.prototype.toLowerCase`, restricted to the ASCII addresses the
dashboard manipulates: lower-case every character. -/
def toLowerStr (s : String) : String :=
  ⟨s.data.map Char.toLower⟩

@[simp] theorem toLowerStr_eq_empty_iff (s : String) : toLowerStr s = "" ↔ s = "" := by
  cases s with
  | mk data =>
    constructor
    · intro h
      have hmap : data.map Char.toLower = [] := congrArg String.data h
      have hd : data = [] := List.map_eq_nil_iff.mp hmap
      subst hd
      rfl
    · intro h
      have hd : data = [] := congrArg String.data h
      subst hd
      rfl

/-- JavaScript `addr.startsWith("0x")`: the first two characters are `0` and `x`. -/
def startsWith0x (s : String) : Bool :=
  match s.data with
  | '0' :: 'x' :: _ => true
  | _ => false

/-- The truthiness + shape check `!addr || !addr.startsWith("0x") || addr.length !== 42`
used by `fetchPoolTokens` and `fetchTokenInfo` before doing anything else. -/
def isWellFormedAddress (s : String) : Bool :=
  s ≠ "" && startsWith0x s && s.length == 42

/-- Token-orientation logic, verbatim from the two identical inline blocks in
`PoolForm.tsx` (`handlePoolAddressChange`, lines 673–703, and
`handleVerifyChainPath`, lines 1104–1133):

```
let tokenIn = tokens.token0; let tokenOut = tokens.token1;
const expected = <anchor or previous token_out>?.toLowerCase();
if (expected) {
  if (tokens.token1.toLowerCase() === expected) { tokenIn = tokens.token1; tokenOut = tokens.token0; }
  else if (tokens.token0.toLowerCase() !== expected) { tokenIn = tokens.token0; tokenOut = tokens.token1; }
}
```

`expected` is the raw anchor token (hop 0) or the previous direction's `token_out`
(later hops); the empty string models the unset/undefined case. -/
def orientPoolTokens (expected token0 token1 : String) : String × String :=
  let e := toLowerStr expected
  if e = "" then (token0, token1)
  else if toLowerStr token1 = e then (token1, token0)
  else (token0, token1)

/-- C2 — Orientation correctness: for every resolved pool token pair
`(token0, token1)` and every expected input token `E` (the empty string models the
unset case), when `E` equals `token1` under case-insensitive comparison the hop is
written with `token_in = token1` and `token_out = token0`; in every other case
(`E` equals `token0`, `E` is unset, or `E` matches neither token) the hop is written
with `token_in = token0` and `token_out = token1`. -/
theorem orientPoolTokens_orientation_correct (expected token0 token1 : String) :
    (expected ≠ "" → toLowerStr token1 = toLowerStr expected →
      orientPoolTokens expected token0 token1 = (token1, token0)) ∧
    (expected = "" ∨ toLowerStr token1 ≠ toLowerStr expected →
      orientPoolTokens expected token0 token1 = (token0, token1)) := by
  constructor
  · intro hne hmatch
    have he : toLowerStr expected ≠ "" := by
      simpa [toLowerStr_eq_empty_iff] using hne
    simp [orientPoolTokens, he, hmatch]
  · intro h
    rcases h with h | h
    · simp [orientPoolTokens, h]
    · by_cases he : toLowerStr expected = ""
      · simp [orientPoolTokens, he]
      · simp [orientPoolTokens, he, h]

/-- Witness for `orientPoolTokens_orientation_correct`: with `E = "0xAB"` and pool
tokens `("0xcd", "0xab")`, `E` matches `token1` case-insensitively and the
orientation flips; with `E` unset the orientation is the identity. -/
theorem orientPoolTokens_orientation_correct_witness :
    orientPoolTokens "0xAB" "0xcd" "0xab" = ("0xab", "0xcd") ∧
    orientPoolTokens "" "0xcd" "0xab" = ("0xcd", "0xab") :=
  ⟨(orientPoolTokens_orientation_correct "0xAB" "0xcd" "0xab").1 (by decide) (by decide),
   (orientPoolTokens_orientation_correct "" "0xcd" "0xab").2 (Or.inl rfl)⟩

/-- C10 — Orientation preserves the pool's token set: for every expected-token value
the pair written to the hop is exactly `(token0, token1)` or exactly
`(token1, token0)`; and when `token0 ≠ token1`, the two slots never receive the same
token. -/
theorem orientPoolTokens_preserves_pair (expected token0 token1 : String) :
    (orientPoolTokens expected token0 token1 = (token0, token1) ∨
      orientPoolTokens expected token0 token1 = (token1, token0)) ∧
    (token0 ≠ token1 →
      (orientPoolTokens expected token0 token1).1 ≠
        (orientPoolTokens expected token0 token1).2) := by
  have hcases : orientPoolTokens expected token0 token1 = (token0, token1) ∨
      orientPoolTokens expected token0 token1 = (token1, token0) := by
    unfold orientPoolTokens
    by_cases he : toLowerStr expected = "" <;>
      by_cases hm : toLowerStr token1 = toLowerStr expected <;>
        simp [he, hm]
  refine ⟨hcases, ?_⟩
  intro hne
  rcases hcases with h | h <;> rw [h] <;> simpa using fun hc => hne (by simp [hc])

/-- Witness for `orientPoolTokens_preserves_pair` at a concrete mismatching input:
expected token matches neither pool token, the pair is preserved and the slots
differ. -/
theorem orientPoolTokens_preserves_pair_witness :
    (orientPoolTokens "0xee" "0xaa" "0xbb" = ("0xaa", "0xbb") ∨
      orientPoolTokens "0xee" "0xaa" "0xbb" = ("0xbb", "0xaa")) ∧
    (orientPoolTokens "0xee" "0xaa" "0xbb").1 ≠
      (orientPoolTokens "0xee" "0xaa" "0xbb").2 :=
  ⟨(orientPoolTokens_preserves_pair "0xee" "0xaa" "0xbb").1,
   (orientPoolTokens_preserves_pair "0xee" "0xaa" "0xbb").2 (by decide)⟩

/-- `validateTokenFlow` from `PoolForm.tsx` (lines 519–566), as a function of the
chain path and the pool/direction indices.  The returned value models what is written
into `validationErrors[errorKey]`: `some ""` means "no error recorded" (the code
stores the empty string), `some msg` a mismatch message, and `none` that the handler
returned before touching the error map (out-of-range indices). -/
def validateTokenFlow (cp : SingleChainPathsWithAnchorToken)
    (poolIndex directionIndex : Nat) : Option String :=
  match cp.paths[poolIndex]? with
  | none => none
  | some poolPath =>
    match poolPath[directionIndex]? with
    | none => none
    | some direction =>
      if direction.token_in = "" ∨ direction.token_out = "" then some ""
      else if directionIndex = 0 then
        let anchorToken := toLowerStr cp.anchor_token
        let tokenIn := toLowerStr direction.token_in
        if anchorToken ≠ "" ∧ tokenIn ≠ "" ∧ anchorToken ≠ tokenIn then
          some ("Token In must match Anchor Token (" ++ cp.anchor_token ++ ")")
        else some ""
      else
        match poolPath[directionIndex - 1]? with
        | none => some ""
        | some prevDirection =>
          let prevTokenOut := toLowerStr prevDirection.token_out
          let currentTokenIn := toLowerStr direction.token_in
          if prevTokenOut ≠ "" ∧ currentTokenIn ≠ "" ∧ prevTokenOut ≠ currentTokenIn then
            some ("Token In must match previous Token Out (" ++
              prevDirection.token_out ++ ")")
          else some ""

/-- The expected input token of a hop, as the spec's `expectedTokenIn` contract reads
off the code of `validateTokenFlow`: the chain path's anchor token for hop 0 and the
previous hop's `token_out` for later hops, `none` when that value is unset. -/
def expectedTokenIn (cp : SingleChainPathsWithAnchorToken)
    (poolIndex directionIndex : Nat) : Option String :=
  if directionIndex = 0 then
    if cp.anchor_token = "" then none else some cp.anchor_token
  else
    match cp.paths[poolIndex]? with
    | none => none
    | some poolPath =>
      match poolPath[directionIndex - 1]? with
      | none => none
      | some prevDirection =>
        if prevDirection.token_out = "" then none else some prevDirection.token_out

/-- The mismatch text `validateTokenFlow` records, naming the expected address. -/
def mismatchMessage (directionIndex : Nat) (e : String) : String :=
  if directionIndex = 0 then "Token In must match Anchor Token (" ++ e ++ ")"
  else "Token In must match previous Token Out (" ++ e ++ ")"

/-- C6 — `validateTokenFlow` behaviour: for every hop, if its `token_in` or
`token_out` is empty the validator records no error (short-circuit); otherwise it
compares the hop's `token_in` case-insensitively against the expected token (the
anchor token for hop 0, the previous hop's `token_out` for later hops) and records a
human-readable mismatch message naming the expected address exactly when they differ,
and no error otherwise. -/
theorem validateTokenFlow_spec (cp : SingleChainPathsWithAnchorToken)
    (poolIndex directionIndex : Nat) (poolPath : PoolPath) (direction : PoolDirection)
    (hpp : cp.paths[poolIndex]? = some poolPath)
    (hd : poolPath[directionIndex]? = some direction) :
    ((direction.token_in = "" ∨ direction.token_out = "") →
        validateTokenFlow cp poolIndex directionIndex = some "") ∧
    (direction.token_in ≠ "" → direction.token_out ≠ "" →
      (expectedTokenIn cp poolIndex directionIndex = none →
          validateTokenFlow cp poolIndex directionIndex = some "") ∧
      (∀ e, expectedTokenIn cp poolIndex directionIndex = some e →
        (toLowerStr e = toLowerStr direction.token_in →
            validateTokenFlow cp poolIndex directionIndex = some "") ∧
        (toLowerStr e ≠ toLowerStr direction.token_in →
          validateTokenFlow cp poolIndex directionIndex =
            some (mismatchMessage directionIndex e) ∧
          ∃ pre post, mismatchMessage directionIndex e = pre ++ e ++ post))) := by
  constructor
  · intro h
    simp only [validateTokenFlow, hpp, hd]
    rw [if_pos h]
  · intro hin hout
    have hno : ¬ (direction.token_in = "" ∨ direction.token_out = "") := by
      simp [hin, hout]
    have htin : toLowerStr direction.token_in ≠ "" := by
      simp [toLowerStr_eq_empty_iff, hin]
    by_cases h0 : directionIndex = 0
    · subst h0
      constructor
      · intro hexp
        have ha : cp.anchor_token = "" := by
          by_cases hane : cp.anchor_token = ""
          · exact hane
          · simp [expectedTokenIn, hane] at hexp
        simp [validateTokenFlow, hpp, hd, hno, ha]
      · intro e hexp
        have hane : cp.anchor_token ≠ "" := by
          intro hc
          simp [expectedTokenIn, hc] at hexp
        have hea : e = cp.anchor_token := by
          simp [expectedTokenIn, hane] at hexp
          exact hexp.symm
        have hta : toLowerStr cp.anchor_token ≠ "" := by
          simp [toLowerStr_eq_empty_iff, hane]
        constructor
        · intro hmatch
          rw [hea] at hmatch
          simp [validateTokenFlow, hpp, hd, hno, hta, htin, hmatch]
        · intro hdiff
          rw [hea] at hdiff
          refine ⟨?_, "Token In must match Anchor Token (", ")",
            by simp [mismatchMessage, hea]⟩
          simp [validateTokenFlow, hpp, hd, hno, hta, htin, hdiff,
            mismatchMessage, hea]
    · cases hprev : poolPath[directionIndex - 1]? with
      | none =>
        constructor
        · intro _
          simp [validateTokenFlow, hpp, hd, hno, h0, hprev]
        · intro e hexp
          simp [expectedTokenIn, h0, hpp, hprev] at hexp
      | some prevDirection =>
        constructor
        · intro hexp
          have hpe : prevDirection.token_out = "" := by
            by_cases hc : prevDirection.token_out = ""
            · exact hc
            · simp [expectedTokenIn, h0, hpp, hprev, hc] at hexp
          simp [validateTokenFlow, hpp, hd, hno, h0, hprev, hpe]
        · intro e hexp
          have hpne : prevDirection.token_out ≠ "" := by
            intro hc
            simp [expectedTokenIn, h0, hpp, hprev, hc] at hexp
          have hep : e = prevDirection.token_out := by
            simp [expectedTokenIn, h0, hpp, hprev, hpne] at hexp
            exact hexp.symm
          have htp : toLowerStr prevDirection.token_out ≠ "" := by
            simp [toLowerStr_eq_empty_iff, hpne]
          constructor
          · intro hmatch
            rw [hep] at hmatch
            simp [validateTokenFlow, hpp, hd, hno, h0, hprev, htp, htin, hmatch]
          · intro hdiff
            rw [hep] at hdiff
            refine ⟨?_, "Token In must match previous Token Out (", ")",
              by simp [mismatchMessage, h0, hep]⟩
            simp [validateTokenFlow, hpp, hd, hno, h0, hprev, htp, htin, hdiff,
              mismatchMessage, hep]

/-- Witness for `validateTokenFlow_spec`: a one-hop chain path whose hop 0 has
`token_in = "0xBB"` against anchor token `"0xaa"`; both tokens of the hop are set,
the expected token is the anchor, they differ case-insensitively, and the recorded
error names the anchor. -/
theorem validateTokenFlow_spec_witness :
    validateTokenFlow
      ⟨[[⟨"0xp", "0xBB", "0xcc"⟩]], 1, "0xaa"⟩ 0 0 =
      some "Token In must match Anchor Token (0xaa)" :=
  ((((validateTokenFlow_spec ⟨[[⟨"0xp", "0xBB", "0xcc"⟩]], 1, "0xaa"⟩ 0 0
      [⟨"0xp", "0xBB", "0xcc"⟩] ⟨"0xp", "0xBB", "0xcc"⟩ rfl rfl).2
    (by decide) (by decide)).2 "0xaa" rfl).2 (by decide)).1

/-- One slot of a viem multicall response: `{ status, result }`. -/
structure CallResult where
  status : Bool
  result : String
deriving Repr, DecidableEq

/-- Observed behaviour of one RPC endpoint for a given pool address, modelling the
network I/O of `fetchPoolTokens` (`src/client/utils/poolTokens.ts`): what
`getBytecode` returns (`.error` = transport threw; `.ok ""` models `undefined`),
what the batched multicall returns, and what the two individual `readContract`
fallback calls return. -/
structure EndpointBehavior where
  bytecode : Except String String
  multicall : Except String (CallResult × CallResult)
  token0Call : Except String String
  token1Call : Except String String
deriving Repr

/-- The error text thrown at `poolTokens.ts` line 79 when the pool address has no
deployed bytecode. -/
def notAContractMsg (poolAddress : String) (chainId : Nat) : String :=
  "Address " ++ poolAddress ++ " is not a contract on chain " ++ toString chainId

/-- The error text thrown at `poolTokens.ts` line 148 when an individual call
returns a falsy token address. -/
def invalidTokensMsg (poolAddress : String) : String :=
  "Contract " ++ poolAddress ++ " returned invalid token addresses"

/-- One iteration of the per-endpoint `try` block of `fetchPoolTokens`
(`poolTokens.ts` lines 51–157): bytecode check, batched multicall, and the
individual-call fallback used when the multicall throws or returns unusable data. -/
def tryEndpoint (poolAddress : String) (chainId : Nat) (b : EndpointBehavior) :
    Except String (String × String) :=
  match b.bytecode with
  | .error e => .error e
  | .ok code =>
    if code = "" ∨ code = "0x" then .error (notAContractMsg poolAddress chainId)
    else
      let individual : Except String (String × String) :=
        match b.token0Call with
        | .error e => .error e
        | .ok token0 =>
          match b.token1Call with
          | .error e => .error e
          | .ok token1 =>
            if token0 = "" ∨ token1 = "" then .error (invalidTokensMsg poolAddress)
            else .ok (toLowerStr token0, toLowerStr token1)
      match b.multicall with
      | .error _ => individual
      | .ok (token0Result, token1Result) =>
        if token0Result.status = true ∧ token1Result.status = true ∧
            token0Result.result ≠ "" ∧ token1Result.result ≠ "" then
          .ok (toLowerStr token0Result.result, toLowerStr token1Result.result)
        else individual

/-- The error text thrown at `poolTokens.ts` lines 170–172 after the endpoint loop
exhausts every RPC (`lastError?.message || "Unknown error"`). -/
def allFailedMsg (poolAddress : String) (chainId : Nat) (lastError : Option String) :
    String :=
  "Failed to fetch pool tokens from all RPC endpoints for " ++ poolAddress ++
    " on chain " ++ toString chainId ++ ". Last error: " ++
    (match lastError with
     | none => "Unknown error"
     | some m => if m = "" then "Unknown error" else m)

/-- The `for (const rpcUrl of rpcUrls)` loop of `fetchPoolTokens`: try each endpoint
in listed order, return at the first success, remember the last error, and throw
`allFailedMsg` when the list is exhausted.  The second component counts how many
endpoints were attempted. -/
def tryEndpoints (poolAddress : String) (chainId : Nat) :
    List EndpointBehavior → Option String → Except String (String × String) × Nat
  | [], lastError => (.error (allFailedMsg poolAddress chainId lastError), 0)
  | b :: rest, _lastError =>
    match tryEndpoint poolAddress chainId b with
    | .ok r => (.ok r, 1)
    | .error e =>
      ((tryEndpoints poolAddress chainId rest (some e)).1,
       (tryEndpoints poolAddress chainId rest (some e)).2 + 1)

/-- A network as `fetchPoolTokens` consumes it: its chain id and its ordered RPC
list, each RPC paired with its observed behaviour for the queried pool. -/
structure NetworkRpcEnv where
  chain_id : Nat
  endpoints : List EndpointBehavior
deriving Repr

/-- `fetchPoolTokens` from `src/client/utils/poolTokens.ts`: `.ok none` models the
early `return null` for malformed addresses, `.ok (some (t0, t1))` a successful
resolution, `.error` a thrown error.  The `Nat` counts attempted endpoints (0 means
no network call was made). -/
def fetchPoolTokens (poolAddress : String) (network : NetworkRpcEnv) :
    Except String (Option (String × String)) × Nat :=
  if isWellFormedAddress poolAddress = false then (.ok none, 0)
  else if network.endpoints.length = 0 then
    (.error ("No RPC URL found for network " ++ toString network.chain_id), 0)
  else
    match tryEndpoints poolAddress network.chain_id network.endpoints none with
    | (.ok r, n) => (.ok (some r), n)
    | (.error e, n) => (.error e, n)

theorem tryEndpoints_prefix_ok (poolAddress : String) (chainId : Nat)
    (b : EndpointBehavior) (post : List EndpointBehavior) (t : String × String)
    (hb : tryEndpoint poolAddress chainId b = .ok t) :
    ∀ (pre : List EndpointBehavior) (lastError : Option String),
      (∀ b' ∈ pre, ∃ e, tryEndpoint poolAddress chainId b' = .error e) →
      tryEndpoints poolAddress chainId (pre ++ b :: post) lastError =
        (.ok t, pre.length + 1) := by
  intro pre
  induction pre with
  | nil =>
    intro _ _
    simp [tryEndpoints, hb]
  | cons b' pre ih =>
    intro lastError hfail
    obtain ⟨e, he⟩ := hfail b' (List.mem_cons_self b' pre)
    have hrest := ih (some e) (fun x hx => hfail x (List.mem_cons_of_mem b' hx))
    simp [tryEndpoints, he, hrest]

theorem tryEndpoints_all_fail (poolAddress : String) (chainId : Nat)
    (bLast : EndpointBehavior) (e : String)
    (hb : tryEndpoint poolAddress chainId bLast = .error e) :
    ∀ (pre : List EndpointBehavior) (lastError : Option String),
      (∀ b' ∈ pre, ∃ e', tryEndpoint poolAddress chainId b' = .error e') →
      tryEndpoints poolAddress chainId (pre ++ [bLast]) lastError =
        (.error (allFailedMsg poolAddress chainId (some e)), pre.length + 1) := by
  intro pre
  induction pre with
  | nil =>
    intro _ _
    simp [tryEndpoints, hb]
  | cons b' pre ih =>
    intro lastError hfail
    obtain ⟨e', he'⟩ := hfail b' (List.mem_cons_self b' pre)
    have hrest := ih (some e') (fun x hx => hfail x (List.mem_cons_of_mem b' hx))
    simp [tryEndpoints, he', hrest]

/-- C5 — Endpoint fallback.  Three clauses:
first, when every endpoint before `b` fails and `b` succeeds, `fetchPoolTokens`
returns `b`'s result having attempted exactly the endpoints up to and including `b`
in listed order (the endpoints after `b` are untouched: the result does not depend
on `post`);
second, a successful endpoint returns its reported `token0`/`token1` both
lower-cased;
third, when every endpoint fails, the call fails with the exhaustion error carrying
the last endpoint's underlying error message. -/
theorem fetchPoolTokens_endpoint_fallback :
    (∀ (poolAddress : String) (chainId : Nat) (pre post : List EndpointBehavior)
        (b : EndpointBehavior) (t : String × String),
      isWellFormedAddress poolAddress = true →
      (∀ b' ∈ pre, ∃ e, tryEndpoint poolAddress chainId b' = .error e) →
      tryEndpoint poolAddress chainId b = .ok t →
      fetchPoolTokens poolAddress ⟨chainId, pre ++ b :: post⟩ =
        (.ok (some t), pre.length + 1)) ∧
    (∀ (poolAddress : String) (chainId : Nat) (b : EndpointBehavior)
        (code : String) (r0 r1 : CallResult),
      b.bytecode = .ok code → code ≠ "" → code ≠ "0x" →
      b.multicall = .ok (r0, r1) →
      r0.status = true → r1.status = true → r0.result ≠ "" → r1.result ≠ "" →
      tryEndpoint poolAddress chainId b =
        .ok (toLowerStr r0.result, toLowerStr r1.result)) ∧
    (∀ (poolAddress : String) (chainId : Nat) (pre : List EndpointBehavior)
        (bLast : EndpointBehavior) (e : String),
      isWellFormedAddress poolAddress = true →
      (∀ b' ∈ pre, ∃ e', tryEndpoint poolAddress chainId b' = .error e') →
      tryEndpoint poolAddress chainId bLast = .error e →
      fetchPoolTokens poolAddress ⟨chainId, pre ++ [bLast]⟩ =
        (.error (allFailedMsg poolAddress chainId (some e)), pre.length + 1)) := by
  refine ⟨?_, ?_, ?_⟩
  · intro poolAddress chainId pre post b t hwf hfail hb
    have hloop := tryEndpoints_prefix_ok poolAddress chainId b post t hb pre none hfail
    simp [fetchPoolTokens, hwf, hloop]
  · intro poolAddress chainId b code r0 r1 hbc hc0 hc1 hmc hs0 hs1 hr0 hr1
    simp [tryEndpoint, hbc, hc0, hc1, hmc, hs0, hs1, hr0, hr1]
  · intro poolAddress chainId pre bLast e hwf hfail hb
    have hloop := tryEndpoints_all_fail poolAddress chainId bLast e hb pre none hfail
    simp [fetchPoolTokens, hwf, hloop]

/-- A syntactically valid pool address used in concrete scenarios. -/
def addrOkPool : String := "0xaaaaaaaaaaaaaaaaaaaaaaaaaaaaaaaaaaaaaaaa"

/-- An endpoint whose bytecode request throws (e.g. a timeout). -/
def epFailing : EndpointBehavior :=
  ⟨.error "connection timeout", .error "down", .error "down", .error "down"⟩

/-- An endpoint that answers with bytecode and a successful multicall reporting
mixed-case token addresses. -/
def epGood : EndpointBehavior :=
  ⟨.ok "0x6080", .ok (⟨true, "0xAbCd"⟩, ⟨true, "0xEf01"⟩), .ok "", .ok ""⟩

/-- Witness for `fetchPoolTokens_endpoint_fallback`: with two RPCs where the first
throws and the second succeeds, resolution uses the second endpoint's data (lower
cased) after attempting both in order. -/
theorem fetchPoolTokens_endpoint_fallback_witness :
    fetchPoolTokens addrOkPool ⟨1, [epFailing, epGood]⟩ =
      (.ok (some ("0xabcd", "0xef01")), 2) :=
  fetchPoolTokens_endpoint_fallback.1 addrOkPool 1 [epFailing] [] epGood
    ("0xabcd", "0xef01") (by decide)
    (by
      intro b' hb'
      have hb : b' = epFailing := by simpa using hb'
      exact ⟨"connection timeout", by rw [hb]; rfl⟩)
    rfl

/-- An endpoint reporting the address has no deployed bytecode (`getBytecode`
returned `"0x"`). -/
def epNoCode : EndpointBehavior :=
  ⟨.ok "0x", .error "unused", .error "unused", .error "unused"⟩

/-- C4 counterexample — the claim says that when an endpoint reports no deployed
bytecode, resolution fails fast with `NotAContract` for the whole call without
attempting the remaining endpoints.  At this concrete input the first endpoint does
report empty bytecode (its attempt fails with the not-a-contract error), yet
`fetchPoolTokens` goes on to attempt the second endpoint and returns its result
successfully: the `catch` of the endpoint loop treats `NotAContract` like any other
per-endpoint error and `continue`s. -/
theorem fetchPoolTokens_noCode_not_fail_fast :
    tryEndpoint addrOkPool 1 epNoCode = .error (notAContractMsg addrOkPool 1) ∧
    fetchPoolTokens addrOkPool ⟨1, [epNoCode, epGood]⟩ =
      (.ok (some ("0xabcd", "0xef01")), 2) :=
  ⟨rfl, rfl⟩

/-- C4 amended — when an endpoint reports that the pool address has no deployed
bytecode, that endpoint's attempt fails with the not-a-contract error, which is
recorded as the loop's last error, and resolution continues with the remaining
endpoints; the whole call fails only if every endpoint fails. -/
theorem fetchPoolTokens_notAContract_recorded
    (poolAddress : String) (chainId : Nat) (b : EndpointBehavior)
    (rest : List EndpointBehavior) (code : String) (lastError : Option String)
    (hbc : b.bytecode = .ok code) (hcode : code = "" ∨ code = "0x") :
    tryEndpoint poolAddress chainId b = .error (notAContractMsg poolAddress chainId) ∧
    tryEndpoints poolAddress chainId (b :: rest) lastError =
      ((tryEndpoints poolAddress chainId rest
          (some (notAContractMsg poolAddress chainId))).1,
       (tryEndpoints poolAddress chainId rest
          (some (notAContractMsg poolAddress chainId))).2 + 1) := by
  have hTry : tryEndpoint poolAddress chainId b =
      .error (notAContractMsg poolAddress chainId) := by
    simp [tryEndpoint, hbc, if_pos hcode]
  exact ⟨hTry, by simp [tryEndpoints, hTry]⟩

/-- Witness for `fetchPoolTokens_notAContract_recorded` at the concrete no-bytecode
endpoint. -/
theorem fetchPoolTokens_notAContract_recorded_witness :
    tryEndpoint addrOkPool 1 epNoCode = .error (notAContractMsg addrOkPool 1) ∧
    tryEndpoints addrOkPool 1 [epNoCode, epGood] none =
      ((tryEndpoints addrOkPool 1 [epGood] (some (notAContractMsg addrOkPool 1))).1,
       (tryEndpoints addrOkPool 1 [epGood] (some (notAContractMsg addrOkPool 1))).2
         + 1) :=
  fetchPoolTokens_notAContract_recorded addrOkPool 1 epNoCode [epGood] "0x" none rfl
    (Or.inr rfl)

/-- C9 counterexample — the claim says resolution of a malformed pool address fails
with an `InvalidInput` error before any network call.  At the concrete malformed
address `"0x123"`, with a perfectly working endpoint configured, `fetchPoolTokens`
makes no network call (0 endpoints attempted) but does not fail: it returns the
`null` sentinel (`.ok none`), not an error of any kind. -/
theorem fetchPoolTokens_malformed_no_error :
    fetchPoolTokens "0x123" ⟨1, [epGood]⟩ = (.ok none, 0) := rfl

/-- C9 amended — for every malformed pool address (empty, not `0x`-prefixed, or not
42 characters), `fetchPoolTokens` returns the `null` sentinel without making any
network call; the malformed input is caught before any I/O but is reported by a
`null` return value rather than a thrown `InvalidInput` error. -/
theorem fetchPoolTokens_malformed_returns_null
    (poolAddress : String) (network : NetworkRpcEnv)
    (h : isWellFormedAddress poolAddress = false) :
    fetchPoolTokens poolAddress network = (.ok none, 0) := by
  simp [fetchPoolTokens, h]

/-- Witness for `fetchPoolTokens_malformed_returns_null` at a non-prefixed
address. -/
theorem fetchPoolTokens_malformed_returns_null_witness :
    fetchPoolTokens "not-an-address" ⟨7, [epGood]⟩ = (.ok none, 0) :=
  fetchPoolTokens_malformed_returns_null "not-an-address" ⟨7, [epGood]⟩ (by decide)

/-- The module-level `tokenInfoCache` of `src/client/utils/tokenInfo.ts`: a map from
cache key to `{name, symbol}` or the cached-failure `null`, modelled as an
association list whose most recent entry shadows older ones. -/
abbrev TokenInfoCache := List (String × Option TokenInfo)

/-- Map lookup: `some v` when the key is present (`tokenInfoCache.has(key)`), where
`v = none` models a cached `null`. -/
def lookupCache (cache : TokenInfoCache) (key : String) : Option (Option TokenInfo) :=
  match cache with
  | [] => none
  | (k, v) :: rest => if k = key then some v else lookupCache rest key

/-- The cache key `` `${network.chain_id}-${tokenAddress.toLowerCase()}` ``. -/
def tokenCacheKey (chainId : Nat) (tokenAddress : String) : String :=
  toString chainId ++ "-" ++ toLowerStr tokenAddress

/-- What the network answers when `fetchTokenInfo` reads one token's
`name()`/`symbol()`: whether `network.rpcs?.[0]` exists, and the outcome of the
paired `readContract` reads (`.error` = the reads threw). -/
structure TokenReadEnv where
  rpcPresent : Bool
  read : Except String TokenInfo
deriving Repr

/-- `fetchTokenInfo` from `src/client/utils/tokenInfo.ts` (lines 370–449), with the
module cache passed explicitly.  Returns the value handed to the caller, the cache
afterwards, and how many network reads were issued (0 or 1).  Mirrors the source:
malformed address → `null` with no caching; cache hit → cached value
(`get(cacheKey) || null`) with no network read; no RPC configured → the thrown
error is swallowed by the `catch`, which caches `null`; otherwise one network read
whose success is cached, and whose failure is caught and cached as `null`. -/
def fetchTokenInfo (env : TokenReadEnv) (chainId : Nat) (tokenAddress : String)
    (cache : TokenInfoCache) : Option TokenInfo × TokenInfoCache × Nat :=
  if isWellFormedAddress tokenAddress = false then (none, cache, 0)
  else
    let cacheKey := tokenCacheKey chainId tokenAddress
    match lookupCache cache cacheKey with
    | some v => (v, cache, 0)
    | none =>
      if env.rpcPresent = false then
        (none, (cacheKey, none) :: cache, 0)
      else
        match env.read with
        | .ok info => (some info, (cacheKey, some info) :: cache, 1)
        | .error _ => (none, (cacheKey, none) :: cache, 1)

/-- Cache idempotence (the true half of the spec's P3): two successive
`fetchTokenInfo` calls for the same `(chain, address)` issue at most one network
read in total, for every starting cache and every pair of network behaviours. -/
theorem fetchTokenInfo_cached_dedup (env env' : TokenReadEnv) (chainId : Nat)
    (addr : String) (cache : TokenInfoCache) :
    (fetchTokenInfo env chainId addr cache).2.2 +
      (fetchTokenInfo env' chainId addr
        (fetchTokenInfo env chainId addr cache).2.1).2.2 ≤ 1 := by
  by_cases hwf : isWellFormedAddress addr = false
  · simp [fetchTokenInfo, hwf]
  · cases hl : lookupCache cache (tokenCacheKey chainId addr) with
    | some v => simp [fetchTokenInfo, hwf, hl]
    | none =>
      by_cases hrpc : env.rpcPresent = false
      · simp [fetchTokenInfo, hwf, hl, hrpc, lookupCache]
      · cases hr : env.read with
        | ok info => simp [fetchTokenInfo, hwf, hl, hrpc, hr, lookupCache]
        | error e => simp [fetchTokenInfo, hwf, hl, hrpc, hr, lookupCache]

/-- A syntactically valid token address used in concrete scenarios. -/
def addrTokenA : String := "0xbbbbbbbbbbbbbbbbbbbbbbbbbbbbbbbbbbbbbbbb"

/-- Metadata already sitting in the cache for `addrTokenA`. -/
def oldInfo : TokenInfo := ⟨"Old Token", "OLD"⟩

/-- The metadata the chain would answer with now. -/
def freshInfo : TokenInfo := ⟨"Fresh Token", "FRESH"⟩

/-- A cache that already holds `addrTokenA` on chain 1. -/
def cacheWithOld : TokenInfoCache := [(tokenCacheKey 1 addrTokenA, some oldInfo)]

/-- A fully working network whose reads would return `freshInfo`. -/
def envFresh : TokenReadEnv := ⟨true, .ok freshInfo⟩

/-- C1 failing input — the claim (and the comments in `handleVerifyChainPath`,
`PoolForm.tsx` lines 1045, 1269 and 1304: "Force fetch even if already cached")
says a manual "Verify" forces a re-fetch that issues exactly one new network call
and overwrites the cached value.  But `handleVerifyChainPath` only removes the key
from the caller-side in-flight set (`fetchingTokensRef`) and then calls plain
`fetchTokenInfo`, which has no bypass parameter: at this concrete input — the token
already cached with stale metadata and a healthy RPC that would answer `freshInfo` —
the call returns the stale cached value, issues zero network reads, and leaves the
cache unchanged. -/
theorem fetchTokenInfo_verify_does_not_force_refetch :
    fetchTokenInfo envFresh 1 addrTokenA cacheWithOld =
      (some oldInfo, cacheWithOld, 0) ∧
    oldInfo ≠ freshInfo :=
  ⟨rfl, by decide⟩

/-- A network row as `fetchTokenInfoBatch` consumes it: looked up by `chain_id`,
read for `rpcs?.[0]` (the multicall contract address only selects which contract is
called, which the read oracle absorbs). -/
structure NetworkRow where
  chain_id : Nat
  rpcs : List String
deriving Repr, DecidableEq

/-- What each chain's batched multicall answers in `fetchTokenInfoBatch`:
`chainCallFails c` models the whole multicall for chain `c` throwing (its `catch`
marks every token of the chain failed); otherwise `slotRead c addr` is `some info`
when both the token's `name` and `symbol` slots report success and `none`
otherwise.  `addr` is the lower-cased address the contract calls target. -/
structure BatchReadEnv where
  chainCallFails : Nat → Bool
  slotRead : Nat → String → Option TokenInfo

/-- One step of the `tokensByChain` grouping loop of `fetchTokenInfoBatch`
(`tokenInfo.ts` lines 462–471): a JS `Map` keeps first-insertion key order and
appends within a group. -/
def insertGrouped (acc : List (Nat × List String)) (chainId : Nat) (addr : String) :
    List (Nat × List String) :=
  match acc with
  | [] => [(chainId, [addr])]
  | (c, as) :: rest =>
    if c = chainId then (c, as ++ [addr]) :: rest
    else (c, as) :: insertGrouped rest chainId addr

/-- The `tokensByChain` map built by iterating the token list in order. -/
def groupByChain (tokens : List (String × Nat)) : List (Nat × List String) :=
  tokens.foldl (fun acc t => insertGrouped acc t.2 t.1) []

/-- One chain's contribution to the result record of `fetchTokenInfoBatch`
(`tokenInfo.ts` lines 474–568): skipped entirely when the chain has no configured
network or no (truthy) first RPC; all slots `null` when the chain's multicall
throws; otherwise each token's slot resolved independently from its own
name/symbol statuses. -/
def chainBlock (env : BatchReadEnv) (networks : List NetworkRow) (chainId : Nat)
    (addrs : List String) : List (String × Option TokenInfo) :=
  match networks.find? (fun n => n.chain_id == chainId) with
  | none => []
  | some net =>
    match net.rpcs.head? with
    | none => []
    | some rpcUrl =>
      if rpcUrl = "" then []
      else if env.chainCallFails chainId then
        addrs.map (fun a => (tokenCacheKey chainId a, none))
      else
        addrs.map (fun a => (tokenCacheKey chainId a, env.slotRead chainId (toLowerStr a)))

/-- `fetchTokenInfoBatch` from `src/client/utils/tokenInfo.ts` (lines 455–572):
group the requested `(address, chainId)` pairs by chain, resolve each chain's
tokens through one multicall, and return the result record (every processed token
keyed by `` `${chainId}-${address.toLowerCase()}` ``) together with the updated
module cache (each processed entry also written to the cache). -/
def fetchTokenInfoBatch (env : BatchReadEnv) (tokens : List (String × Nat))
    (networks : List NetworkRow) (cache : TokenInfoCache) :
    List (String × Option TokenInfo) × TokenInfoCache :=
  let result := ((groupByChain tokens).map
    (fun g => chainBlock env networks g.1 g.2)).flatten
  (result, result.foldl (fun c e => e :: c) cache)

theorem insertGrouped_pairs_subset {P : String × Nat → Prop} :
    ∀ (acc : List (Nat × List String)) (c₀ : Nat) (a₀ : String),
      (∀ g ∈ acc, ∀ a ∈ g.2, P (a, g.1)) → P (a₀, c₀) →
      ∀ g ∈ insertGrouped acc c₀ a₀, ∀ a ∈ g.2, P (a, g.1) := by
  intro acc
  induction acc with
  | nil =>
    intro c₀ a₀ _ hP g hg a ha
    simp [insertGrouped] at hg
    subst hg
    simp at ha
    subst ha
    exact hP
  | cons hd rest ih =>
    obtain ⟨c', as'⟩ := hd
    intro c₀ a₀ hacc hP g hg a ha
    by_cases hc : c' = c₀
    · subst hc
      simp [insertGrouped] at hg
      rcases hg with hg | hg
      · subst hg
        simp at ha
        rcases ha with ha | ha
        · exact hacc (c', as') (List.mem_cons_self _ _) a ha
        · subst ha
          exact hP
      · exact hacc g (List.mem_cons_of_mem _ hg) a ha
    · simp [insertGrouped, hc] at hg
      rcases hg with hg | hg
      · subst hg
        exact hacc (c', as') (List.mem_cons_self _ _) a ha
      · exact ih c₀ a₀ (fun g' hg' => hacc g' (List.mem_cons_of_mem _ hg')) hP g hg a ha

theorem insertGrouped_self_mem :
    ∀ (acc : List (Nat × List String)) (c₀ : Nat) (a₀ : String),
      ∃ as, (c₀, as) ∈ insertGrouped acc c₀ a₀ ∧ a₀ ∈ as := by
  intro acc
  induction acc with
  | nil =>
    intro c₀ a₀
    exact ⟨[a₀], by simp [insertGrouped], by simp⟩
  | cons hd rest ih =>
    obtain ⟨c', as'⟩ := hd
    intro c₀ a₀
    by_cases hc : c' = c₀
    · subst hc
      exact ⟨as' ++ [a₀], by simp [insertGrouped], by simp⟩
    · obtain ⟨as, hmem, ha⟩ := ih c₀ a₀
      exact ⟨as, by simp [insertGrouped, hc, hmem], ha⟩

theorem insertGrouped_mem_preserved :
    ∀ (acc : List (Nat × List String)) (c₀ : Nat) (a₀ : String) (c : Nat)
      (as : List String) (a : String), (c, as) ∈ acc → a ∈ as →
      ∃ as', (c, as') ∈ insertGrouped acc c₀ a₀ ∧ a ∈ as' := by
  intro acc
  induction acc with
  | nil =>
    intro c₀ a₀ c as a hmem _
    simp at hmem
  | cons hd rest ih =>
    obtain ⟨c', as'⟩ := hd
    intro c₀ a₀ c as a hmem ha
    rcases List.mem_cons.mp hmem with hmem | hmem
    · rw [Prod.mk.injEq] at hmem
      obtain ⟨h1, h2⟩ := hmem
      subst h1
      subst h2
      by_cases hc : c = c₀
      · subst hc
        exact ⟨as ++ [a₀], by simp [insertGrouped], by simp [ha]⟩
      · exact ⟨as, by simp [insertGrouped, hc], ha⟩
    · by_cases hc : c' = c₀
      · subst hc
        exact ⟨as, by simp [insertGrouped, List.mem_cons_of_mem _ hmem], ha⟩
      · obtain ⟨as'', hmem'', ha''⟩ := ih c₀ a₀ c as a hmem ha
        exact ⟨as'', by simp [insertGrouped, hc, hmem''], ha''⟩

theorem groupByChain_pairs_subset {P : String × Nat → Prop} :
    ∀ (tokens : List (String × Nat)) (acc : List (Nat × List String)),
      (∀ g ∈ acc, ∀ a ∈ g.2, P (a, g.1)) → (∀ t ∈ tokens, P t) →
      ∀ g ∈ tokens.foldl (fun acc t => insertGrouped acc t.2 t.1) acc,
        ∀ a ∈ g.2, P (a, g.1) := by
  intro tokens
  induction tokens with
  | nil =>
    intro acc hacc _ g hg a ha
    exact hacc g hg a ha
  | cons t ts ih =>
    intro acc hacc htok g hg a ha
    refine ih (insertGrouped acc t.2 t.1) ?_
      (fun x hx => htok x (List.mem_cons_of_mem _ hx)) g (by simpa using hg) a ha
    exact insertGrouped_pairs_subset acc t.2 t.1 hacc
      (by simpa using htok t (List.mem_cons_self _ _))

theorem groupByChain_mem :
    ∀ (tokens : List (String × Nat)) (acc : List (Nat × List String))
      (addr : String) (cid : Nat),
      ((addr, cid) ∈ tokens ∨ ∃ as, (cid, as) ∈ acc ∧ addr ∈ as) →
      ∃ as, (cid, as) ∈ tokens.foldl (fun acc t => insertGrouped acc t.2 t.1) acc ∧
        addr ∈ as := by
  intro tokens
  induction tokens with
  | nil =>
    intro acc addr cid h
    rcases h with h | h
    · simp at h
    · simpa using h
  | cons t ts ih =>
    intro acc addr cid h
    have hstep : (addr, cid) ∈ ts ∨
        ∃ as, (cid, as) ∈ insertGrouped acc t.2 t.1 ∧ addr ∈ as := by
      rcases h with h | ⟨as, hmem, ha⟩
      · rcases List.mem_cons.mp h with h | h
        · right
          have h1 : t.2 = cid := congrArg Prod.snd h.symm
          have h2 : t.1 = addr := congrArg Prod.fst h.symm
          rw [← h1, ← h2]
          exact insertGrouped_self_mem acc t.2 t.1
        · exact Or.inl h
      · exact Or.inr (insertGrouped_mem_preserved acc t.2 t.1 cid as addr hmem ha)
    simpa using ih (insertGrouped acc t.2 t.1) addr cid hstep

theorem lookupCache_of_all (l : List (String × Option TokenInfo)) (K : String)
    (V : Option TokenInfo) (hex : ∃ e ∈ l, e.1 = K)
    (hall : ∀ e ∈ l, e.1 = K → e.2 = V) : lookupCache l K = some V := by
  induction l with
  | nil => simp at hex
  | cons hd rest ih =>
    obtain ⟨k, v⟩ := hd
    by_cases hk : k = K
    · have hv : v = V := hall (k, v) (List.mem_cons_self _ _) hk
      simp [lookupCache, hk, hv]
    · have hex' : ∃ e ∈ rest, e.1 = K := by
        obtain ⟨e, he, hek⟩ := hex
        rcases List.mem_cons.mp he with he | he
        · rw [he] at hek
          exact absurd hek hk
        · exact ⟨e, he, hek⟩
      simp [lookupCache, hk,
        ih hex' (fun e he hek => hall e (List.mem_cons_of_mem _ he) hek)]

/-- C7 — Batched resolution partial-failure tolerance: `fetchTokenInfoBatch` groups
the requested tokens by chain and resolves every token's slot independently.  For
any input list with pairwise-distinct cache keys, any requested token whose chain
has a configured network with a truthy first RPC and whose chain multicall does not
throw wholesale gets exactly its own slot outcome in the returned record: its
metadata when its `name()`/`symbol()` slots succeed, the failure marker `null`
(`none`) when they fail — independent of every other token's outcome.  The function
is total (never throws): per-token and even per-chain failures only mark slots
`null`. -/
theorem fetchTokenInfoBatch_partial_failure (env : BatchReadEnv)
    (tokens : List (String × Nat)) (networks : List NetworkRow)
    (cache : TokenInfoCache) (addr : String) (cid : Nat) (net : NetworkRow)
    (rpcUrl : String)
    (hnodup : (tokens.map (fun t => tokenCacheKey t.2 t.1)).Nodup)
    (hmem : (addr, cid) ∈ tokens)
    (hfind : networks.find? (fun n => n.chain_id == cid) = some net)
    (hrpc : net.rpcs.head? = some rpcUrl) (hrpcne : rpcUrl ≠ "")
    (hfail : env.chainCallFails cid = false) :
    lookupCache (fetchTokenInfoBatch env tokens networks cache).1
      (tokenCacheKey cid addr) = some (env.slotRead cid (toLowerStr addr)) := by
  have hinj := List.inj_on_of_nodup_map hnodup
  have hpairs : ∀ g ∈ groupByChain tokens, ∀ a ∈ g.2, (a, g.1) ∈ tokens :=
    groupByChain_pairs_subset tokens [] (by simp) (fun t ht => ht)
  apply lookupCache_of_all
  · -- existence: our token's entry is in its chain's block
    obtain ⟨as, hgmem, hamem⟩ :=
      groupByChain_mem tokens [] addr cid (Or.inl hmem)
    refine ⟨(tokenCacheKey cid addr, env.slotRead cid (toLowerStr addr)), ?_, rfl⟩
    simp only [fetchTokenInfoBatch, List.mem_flatten]
    refine ⟨chainBlock env networks cid as, List.mem_map.mpr ⟨(cid, as), hgmem, rfl⟩, ?_⟩
    simp [chainBlock, hfind, hrpc, hrpcne, hfail]
    exact ⟨addr, hamem, rfl, rfl⟩
  · -- uniqueness of value: every entry carrying our key carries our value
    intro e he hekey
    simp only [fetchTokenInfoBatch, List.mem_flatten, List.mem_map] at he
    obtain ⟨_, ⟨g, hg, rfl⟩, heblock⟩ := he
    unfold chainBlock at heblock
    split at heblock
    · simp at heblock
    · split at heblock
      · simp at heblock
      · split at heblock
        · simp at heblock
        · split at heblock
          · -- whole-chain multicall failure branch: would force our chain to fail
            rename_i hcf
            simp only [List.mem_map] at heblock
            obtain ⟨a, hamem, hae⟩ := heblock
            have hkey : tokenCacheKey g.1 a = tokenCacheKey cid addr := by
              rw [← hekey, ← hae]
            have hpair : (a, g.1) = (addr, cid) :=
              hinj (hpairs g hg a hamem) hmem (by simpa using hkey)
            have hcid : g.1 = cid := congrArg Prod.snd hpair
            rw [hcid, hfail] at hcf
            exact absurd hcf (by simp)
          · rename_i hcf
            simp only [List.mem_map] at heblock
            obtain ⟨a, hamem, hae⟩ := heblock
            have hkey : tokenCacheKey g.1 a = tokenCacheKey cid addr := by
              rw [← hekey, ← hae]
            have hpair : (a, g.1) = (addr, cid) :=
              hinj (hpairs g hg a hamem) hmem (by simpa using hkey)
            have ha : a = addr := congrArg Prod.fst hpair
            have hcid : g.1 = cid := congrArg Prod.snd hpair
            rw [← hae]
            simp [ha, hcid]

/-- The network directory used in the concrete batch scenario. -/
def batchNetworks : List NetworkRow := [⟨1, ["https://rpc.example"]⟩]

/-- A batch oracle under which tokens `0xa4` and `0xa5` fail their name/symbol
reads and every other token resolves. -/
def envBatch : BatchReadEnv :=
  ⟨fun _ => false,
   fun _ a => if a = "0xa4" ∨ a = "0xa5" then none else some ⟨"Token", "TOK"⟩⟩

/-- Five tokens on chain 1, of which two will fail. -/
def batchTokens : List (String × Nat) :=
  [("0xA1", 1), ("0xA2", 1), ("0xA3", 1), ("0xA4", 1), ("0xA5", 1)]

/-- Witness for `fetchTokenInfoBatch_partial_failure`: of 5 requested tokens where 2
fail, the result carries the metadata of the 3 successes and the `null` marker for
the 2 failures. -/
theorem fetchTokenInfoBatch_partial_failure_witness :
    lookupCache (fetchTokenInfoBatch envBatch batchTokens batchNetworks []).1
      (tokenCacheKey 1 "0xA1") = some (some ⟨"Token", "TOK"⟩) ∧
    lookupCache (fetchTokenInfoBatch envBatch batchTokens batchNetworks []).1
      (tokenCacheKey 1 "0xA2") = some (some ⟨"Token", "TOK"⟩) ∧
    lookupCache (fetchTokenInfoBatch envBatch batchTokens batchNetworks []).1
      (tokenCacheKey 1 "0xA3") = some (some ⟨"Token", "TOK"⟩) ∧
    lookupCache (fetchTokenInfoBatch envBatch batchTokens batchNetworks []).1
      (tokenCacheKey 1 "0xA4") = some none ∧
    lookupCache (fetchTokenInfoBatch envBatch batchTokens batchNetworks []).1
      (tokenCacheKey 1 "0xA5") = some none :=
  ⟨fetchTokenInfoBatch_partial_failure envBatch batchTokens batchNetworks [] "0xA1" 1
      ⟨1, ["https://rpc.example"]⟩ "https://rpc.example" (by decide) (by decide) rfl
      rfl (by decide) rfl,
   fetchTokenInfoBatch_partial_failure envBatch batchTokens batchNetworks [] "0xA2" 1
      ⟨1, ["https://rpc.example"]⟩ "https://rpc.example" (by decide) (by decide) rfl
      rfl (by decide) rfl,
   fetchTokenInfoBatch_partial_failure envBatch batchTokens batchNetworks [] "0xA3" 1
      ⟨1, ["https://rpc.example"]⟩ "https://rpc.example" (by decide) (by decide) rfl
      rfl (by decide) rfl,
   fetchTokenInfoBatch_partial_failure envBatch batchTokens batchNetworks [] "0xA4" 1
      ⟨1, ["https://rpc.example"]⟩ "https://rpc.example" (by decide) (by decide) rfl
      rfl (by decide) rfl,
   fetchTokenInfoBatch_partial_failure envBatch batchTokens batchNetworks [] "0xA5" 1
      ⟨1, ["https://rpc.example"]⟩ "https://rpc.example" (by decide) (by decide) rfl
      rfl (by decide) rfl⟩

/-- JavaScript `String.prototype.trim` on the ASCII data the form handles: strip
leading and trailing whitespace. -/
def jsTrim (s : String) : String :=
  ⟨(((s.data.dropWhile Char.isWhitespace).reverse.dropWhile Char.isWhitespace).reverse)⟩

/-- One address-format check of `handleSubmit` (`PoolForm.tsx` lines 1455–1493):
a non-empty, non-blank field whose trimmed value fails `isAddress` contributes an
`"Invalid Ethereum address format"` entry under its field key.  `isAddr` stands for
viem's `isAddress`, an external collaborator. -/
def addrFieldError (isAddr : String → Bool) (key s : String) :
    Option (String × String) :=
  if s = "" then none
  else if jsTrim s = "" then none
  else if isAddr (jsTrim s) then none
  else some (key, "Invalid Ethereum address format")

/-- The pool/token_in/token_out format checks for one direction. -/
def hopAddressErrors (isAddr : String → Bool) (ci pj dj : Nat)
    (d : PoolDirection) : List (String × String) :=
  (addrFieldError isAddr
      ("pool-" ++ toString ci ++ "-" ++ toString pj ++ "-" ++ toString dj)
      d.pool).toList ++
  (addrFieldError isAddr
      ("token_in-" ++ toString ci ++ "-" ++ toString pj ++ "-" ++ toString dj)
      d.token_in).toList ++
  (addrFieldError isAddr
      ("token_out-" ++ toString ci ++ "-" ++ toString pj ++ "-" ++ toString dj)
      d.token_out).toList

/-- The `addressErrors` record built by `handleSubmit` before anything else. -/
def collectAddressErrors (isAddr : String → Bool) (fd : PathDoc) :
    List (String × String) :=
  (fd.paths.enum.map (fun cip =>
    (addrFieldError isAddr ("anchor-" ++ toString cip.1) cip.2.anchor_token).toList ++
    ((cip.2.paths.enum.map (fun pjp =>
      ((pjp.2.enum.map (fun djd =>
        hopAddressErrors isAddr cip.1 pjp.1 djd.1 djd.2)).flatten))).flatten))).flatten

/-- The per-chain-path structural error text of `handleSubmit` (`PoolForm.tsx`
lines 1500–1516): a missing network selection and/or zero pools, with the two
messages concatenated when both apply.  The anchor token is *not* checked here. -/
def chainErrorFor (p : SingleChainPathsWithAnchorToken) : Option String :=
  let m1 : Option String :=
    if p.chain_id = 0 then
      some "Please select a network (Chain ID) before saving."
    else none
  let m2 : Option String :=
    if p.paths.length = 0 then
      some "Please add at least one pool before saving."
    else none
  match m1, m2 with
  | some a, some b => some (a ++ " " ++ b)
  | some a, none => some a
  | none, some b => some b
  | none, none => none

def collectChainErrorsAux : Nat → List SingleChainPathsWithAnchorToken →
    List (Nat × String)
  | _, [] => []
  | i, p :: ps =>
    match chainErrorFor p with
    | some m => (i, m) :: collectChainErrorsAux (i + 1) ps
    | none => collectChainErrorsAux (i + 1) ps

/-- The `newChainErrors` record of `handleSubmit`, indexed by chain-path index. -/
def collectChainErrors (fd : PathDoc) : List (Nat × String) :=
  collectChainErrorsAux 0 fd.paths

/-- The observable outcome of one `handleSubmit` invocation: blocked on address
format errors, blocked on structural chain errors, verification triggered (no
save), or the document handed to the persistence collaborator (`onSubmit`). -/
inductive SubmitOutcome where
  | blockedAddress (errors : List (String × String))
  | blockedChain (errors : List (Nat × String))
  | triggeredVerifyAll
  | saved
deriving Repr, DecidableEq

/-- `handleSubmit` from `PoolForm.tsx` (lines 1447–1533) as a function of the form
document and the `isVerified` flag: address-format validation first, then the
structural chain validation, then the verify-before-save gate, and only then the
single `onSubmit` call. -/
def handleSubmit (isAddr : String → Bool) (fd : PathDoc) (isVerified : Bool) :
    SubmitOutcome :=
  let addressErrors := collectAddressErrors isAddr fd
  if addressErrors.length ≠ 0 then .blockedAddress addressErrors
  else
    let newChainErrors := collectChainErrors fd
    if newChainErrors.length ≠ 0 then .blockedChain newChainErrors
    else if isVerified = false then .triggeredVerifyAll
    else .saved

theorem chainErrorFor_eq_none_iff (p : SingleChainPathsWithAnchorToken) :
    chainErrorFor p = none ↔ (p.chain_id ≠ 0 ∧ p.paths.length ≠ 0) := by
  unfold chainErrorFor
  by_cases h1 : p.chain_id = 0 <;> by_cases h2 : p.paths.length = 0 <;>
    simp [h1, h2]

theorem collectChainErrorsAux_eq_nil_iff :
    ∀ (ps : List SingleChainPathsWithAnchorToken) (i : Nat),
      collectChainErrorsAux i ps = [] ↔ ∀ p ∈ ps, chainErrorFor p = none := by
  intro ps
  induction ps with
  | nil => intro i; simp [collectChainErrorsAux]
  | cons p ps ih =>
    intro i
    cases hc : chainErrorFor p with
    | some m => simp [collectChainErrorsAux, hc]
    | none => simp [collectChainErrorsAux, hc, ih (i + 1)]

theorem collectChainErrorsAux_mem :
    ∀ (ps : List SingleChainPathsWithAnchorToken) (i j : Nat)
      (p : SingleChainPathsWithAnchorToken) (m : String),
      ps[j]? = some p → chainErrorFor p = some m →
      (i + j, m) ∈ collectChainErrorsAux i ps := by
  intro ps
  induction ps with
  | nil => intro i j p m hj; simp at hj
  | cons q ps ih =>
    intro i j p m hj hm
    cases j with
    | zero =>
      have hq : q = p := by simpa using hj
      subst hq
      simp [collectChainErrorsAux, hm]
    | succ j =>
      have hj' : ps[j]? = some p := by simpa using hj
      have hmem := ih (i + 1) j p m hj' hm
      have harith : i + (j + 1) = i + 1 + j := by omega
      rw [harith]
      cases hc : chainErrorFor q with
      | some m' => simp [collectChainErrorsAux, hc, hmem]
      | none => simpa [collectChainErrorsAux, hc] using hmem

/-- A structurally suspicious document: one chain path with a selected network
(`chain_id = 1`) and one pool path containing one (empty) hop, but **no anchor
token** (`anchor_token = ""`). -/
def fdMissingAnchor : PathDoc := ⟨[⟨[[⟨"", "", ""⟩]], 1, ""⟩]⟩

/-- C3 counterexample — the claim says submission is blocked (with per-chain-path
error text, and without attempting verification) whenever a chain path is missing a
network selection, missing an anchor token, or has zero pools.  `fdMissingAnchor`
has a missing anchor token (second conjunct), yet an unverified submit is *not*
blocked: `handleSubmit` proceeds straight to triggering "Verify all" — its
structural validation only checks the network selection and the pool count, never
the anchor token. -/
theorem handleSubmit_missing_anchor_not_blocked :
    handleSubmit (fun _ => true) fdMissingAnchor false =
      SubmitOutcome.triggeredVerifyAll ∧
    fdMissingAnchor.paths.map (fun p => p.anchor_token) = [""] :=
  ⟨rfl, rfl⟩

/-- C3 amended — submit gating as the code implements it: assuming the
address-format pass finds nothing, (a) if any chain path is missing a network
selection or has zero pools, submission is blocked with the per-chain-path error
record (each offending chain path index carries an error message) and neither
verification nor persistence is reached; (b) if the document is structurally valid
(every chain path has a network and at least one pool — a missing anchor token does
not block) and not yet Verified, submit triggers "Verify all" and does not call the
persistence collaborator; (c) only when structurally valid and Verified does submit
hand the document to the persistence collaborator (the single `onSubmit` call). -/
theorem handleSubmit_gating (isAddr : String → Bool) (fd : PathDoc)
    (isVerified : Bool) (haddr : collectAddressErrors isAddr fd = []) :
    ((∃ p ∈ fd.paths, p.chain_id = 0 ∨ p.paths.length = 0) →
      handleSubmit isAddr fd isVerified = .blockedChain (collectChainErrors fd) ∧
      collectChainErrors fd ≠ [] ∧
      (∀ (i : Nat) (p : SingleChainPathsWithAnchorToken), fd.paths[i]? = some p →
        (p.chain_id = 0 ∨ p.paths.length = 0) →
        ∃ m, (i, m) ∈ collectChainErrors fd)) ∧
    ((∀ p ∈ fd.paths, p.chain_id ≠ 0 ∧ p.paths.length ≠ 0) → isVerified = false →
      handleSubmit isAddr fd isVerified = .triggeredVerifyAll) ∧
    ((∀ p ∈ fd.paths, p.chain_id ≠ 0 ∧ p.paths.length ≠ 0) → isVerified = true →
      handleSubmit isAddr fd isVerified = .saved) := by
  have hmem_of : ∀ (i : Nat) (p : SingleChainPathsWithAnchorToken),
      fd.paths[i]? = some p → (p.chain_id = 0 ∨ p.paths.length = 0) →
      ∃ m, (i, m) ∈ collectChainErrors fd := by
    intro i p hp hbad
    cases hc : chainErrorFor p with
    | none =>
      rw [chainErrorFor_eq_none_iff] at hc
      rcases hbad with hbad | hbad
      · exact absurd hbad hc.1
      · exact absurd hbad hc.2
    | some m =>
      refine ⟨m, ?_⟩
      have := collectChainErrorsAux_mem fd.paths 0 i p m hp hc
      simpa [collectChainErrors] using this
  refine ⟨?_, ?_, ?_⟩
  · intro hbad
    obtain ⟨p, hp, hviol⟩ := hbad
    have hne : collectChainErrors fd ≠ [] := by
      intro hnil
      have hall := (collectChainErrorsAux_eq_nil_iff fd.paths 0).mp hnil
      have := (chainErrorFor_eq_none_iff p).mp (hall p hp)
      rcases hviol with hv | hv
      · exact this.1 hv
      · exact this.2 hv
    refine ⟨?_, hne, hmem_of⟩
    simp only [handleSubmit, haddr]
    simp [collectChainErrors] at hne ⊢
    simp [hne]
  · intro hok hv
    have hnil : collectChainErrors fd = [] :=
      (collectChainErrorsAux_eq_nil_iff fd.paths 0).mpr
        (fun p hp => (chainErrorFor_eq_none_iff p).mpr (hok p hp))
    simp [handleSubmit, haddr, collectChainErrors] at hnil ⊢
    simp [hnil, hv]
  · intro hok hv
    have hnil : collectChainErrors fd = [] :=
      (collectChainErrorsAux_eq_nil_iff fd.paths 0).mpr
        (fun p hp => (chainErrorFor_eq_none_iff p).mpr (hok p hp))
    simp [handleSubmit, haddr, collectChainErrors] at hnil ⊢
    simp [hnil, hv]

/-- A structurally valid one-chain document: network selected, anchor token set,
one pool path with one hop. -/
def fdStructOk : PathDoc := ⟨[⟨[[⟨"", "", ""⟩]], 1, "0xaa"⟩]⟩

/-- Witness for `handleSubmit_gating`: on the structurally valid `fdStructOk`, an
unverified submit triggers "Verify all" (no save), and a verified submit saves. -/
theorem handleSubmit_gating_witness :
    handleSubmit (fun _ => true) fdStructOk false =
      SubmitOutcome.triggeredVerifyAll ∧
    handleSubmit (fun _ => true) fdStructOk true = SubmitOutcome.saved :=
  ⟨(handleSubmit_gating (fun _ => true) fdStructOk false rfl).2.1 (by decide) rfl,
   (handleSubmit_gating (fun _ => true) fdStructOk true rfl).2.2 (by decide) rfl⟩

/-- Which field of a hop `handlePoolDirectionChange` writes. -/
inductive HopField where
  | pool
  | token_in
  | token_out
deriving Repr, DecidableEq

/-- `{ ...d, [field]: value }` of `handlePoolDirectionChange`. -/
def setField (d : PoolDirection) : HopField → String → PoolDirection
  | .pool, v => { d with pool := v }
  | .token_in, v => { d with token_in := v }
  | .token_out, v => { d with token_out := v }

/-- JS `arr.map((x, idx) => idx === i ? f x : x)`, the update idiom every structural
handler in `PathForm` uses. -/
def mapAt {α : Type} : List α → Nat → (α → α) → List α
  | [], _, _ => []
  | x :: xs, 0, f => f x :: xs
  | x :: xs, n + 1, f => x :: mapAt xs n f

/-- The structural edits of the path document: one constructor per `PathForm`
handler that calls `setFormData` on `paths`. -/
inductive PathEdit where
  | addChainPath
  | removeChainPath (i : Nat)
  | setChainId (i : Nat) (v : Nat)
  | setAnchorToken (i : Nat) (v : String)
  | addPoolPath (ci : Nat)
  | removePoolPath (ci : Nat) (pj : Nat)
  | addPoolDirection (ci : Nat) (pj : Nat)
  | removePoolDirection (ci : Nat) (pj : Nat) (dj : Nat)
  | poolDirectionChange (ci : Nat) (pj : Nat) (dj : Nat) (f : HopField) (v : String)
deriving Repr

/-- The effect of each handler on `formData.paths`.  `some fd'` means the handler
invoked `setFormData` (so the `useEffect` watching `formData.paths` will run);
`none` means it returned early without touching the document —
`handleAddPoolPath` rejects the edit when the chain path has no selected network
or no (non-blank) anchor token (`PoolForm.tsx` lines 443–463). -/
def applyEdit (fd : PathDoc) : PathEdit → Option PathDoc
  | .addChainPath => some ⟨fd.paths ++ [⟨[], 0, ""⟩]⟩
  | .removeChainPath i => some ⟨fd.paths.eraseIdx i⟩
  | .setChainId i v => some ⟨mapAt fd.paths i (fun p => { p with chain_id := v })⟩
  | .setAnchorToken i v =>
    some ⟨mapAt fd.paths i (fun p => { p with anchor_token := v })⟩
  | .addPoolPath ci =>
    match fd.paths[ci]? with
    | none => none
    | some cp =>
      if cp.chain_id = 0 then none
      else if cp.anchor_token = "" then none
      else if jsTrim cp.anchor_token = "" then none
      else some ⟨mapAt fd.paths ci
        (fun p => { p with paths := p.paths ++ [[⟨"", "", ""⟩]] })⟩
  | .removePoolPath ci pj =>
    some ⟨mapAt fd.paths ci (fun p => { p with paths := p.paths.eraseIdx pj })⟩
  | .addPoolDirection ci pj =>
    some ⟨mapAt fd.paths ci (fun p =>
      { p with paths := mapAt p.paths pj (fun pp => pp ++ [⟨"", "", ""⟩]) })⟩
  | .removePoolDirection ci pj dj =>
    some ⟨mapAt fd.paths ci (fun p =>
      { p with paths := mapAt p.paths pj (fun pp => pp.eraseIdx dj) })⟩
  | .poolDirectionChange ci pj dj f v =>
    some ⟨mapAt fd.paths ci (fun p =>
      { p with paths := mapAt p.paths pj (fun pp =>
        mapAt pp dj (fun d => setField d f v)) })⟩

/-- The events that touch the `isVerified` flag: a structural edit (followed by the
`useEffect` on `[formData.paths]`, `PoolForm.tsx` lines 825–836, which runs
`setIsVerified(false)` whenever `setFormData` produced a new `paths` array), and the
completion of a `handleVerifyAll` pass (lines 1370–1445), which sets the flag to
`true` exactly when every required token had cached metadata and leaves it `false`
otherwise (it sets `false` at the start and on the failure paths). -/
inductive FormEvent where
  | edit (e : PathEdit)
  | verifyAll (success : Bool)
deriving Repr

/-- One step of the `(formData, isVerified)` state. -/
def stepForm : PathDoc × Bool → FormEvent → PathDoc × Bool
  | (fd, v), .edit e =>
    match applyEdit fd e with
    | some fd' => (fd', false)
    | none => (fd, v)
  | (fd, _), .verifyAll success => (fd, success)

/-- A whole interaction trace. -/
def runForm (s : PathDoc × Bool) : List FormEvent → PathDoc × Bool
  | [] => s
  | ev :: evs => runForm (stepForm s ev) evs

/-- C8 — Verification-invalidation invariant: (a) after every structural change to
the path document (every edit the handlers actually apply), the `isVerified` flag
is `false`; (b) starting from an unverified state, the flag can only be `true`
again if the trace contains a successful "Verify all" completion — no edit sequence
alone ever sets it. -/
theorem isVerified_invalidation :
    (∀ (fd : PathDoc) (v : Bool) (e : PathEdit) (fd' : PathDoc),
      applyEdit fd e = some fd' →
      stepForm (fd, v) (.edit e) = (fd', false)) ∧
    (∀ (s : PathDoc × Bool) (tr : List FormEvent),
      s.2 = false → (runForm s tr).2 = true → FormEvent.verifyAll true ∈ tr) := by
  constructor
  · intro fd v e fd' h
    simp [stepForm, h]
  · intro s tr
    induction tr generalizing s with
    | nil =>
      intro hs hrun
      simp [runForm] at hrun
      rw [hrun] at hs
      exact absurd hs (by simp)
    | cons ev evs ih =>
      intro hs hrun
      obtain ⟨fd, v⟩ := s
      simp at hs
      subst hs
      cases ev with
      | edit e =>
        cases happ : applyEdit fd e with
        | none =>
          have : (runForm (fd, false) evs).2 = true := by
            simpa [runForm, stepForm, happ] using hrun
          exact List.mem_cons_of_mem _ (ih (fd, false) rfl this)
        | some fd' =>
          have : (runForm (fd', false) evs).2 = true := by
            simpa [runForm, stepForm, happ] using hrun
          exact List.mem_cons_of_mem _ (ih (fd', false) rfl this)
      | verifyAll success =>
        cases success with
        | true => exact List.mem_cons_self _ _
        | false =>
          have : (runForm (fd, false) evs).2 = true := by
            simpa [runForm, stepForm] using hrun
          exact List.mem_cons_of_mem _ (ih (fd, false) rfl this)

/-- Witness for `isVerified_invalidation`: adding a chain path to a verified empty
document clears the flag, and the flag being `true` after the one-event trace
`[verifyAll true]` indeed exhibits that successful pass in the trace. -/
theorem isVerified_invalidation_witness :
    stepForm (⟨[]⟩, true) (.edit .addChainPath) = (⟨[⟨[], 0, ""⟩]⟩, false) ∧
    FormEvent.verifyAll true ∈ [FormEvent.verifyAll true] :=
  ⟨isVerified_invalidation.1 ⟨[]⟩ true .addChainPath ⟨[⟨[], 0, ""⟩]⟩ rfl,
   isVerified_invalidation.2 (⟨[]⟩, false) [.verifyAll true] rfl rfl⟩

end ArbDash
